import Mathlib

/-!
Verification development for the mdify repository (Go).

The definitions below are a shallow embedding of the code in
`pkg/scraper/scraper.go`, `pkg/server/server.go`, `pkg/sitemap` and
`internal/filesystem`.  External effects (HTTP client, clock, filesystem,
the goquery/html-to-markdown engines, the encoding/xml decoder) are
represented by explicit data passed to the embedded functions, mirroring
the interfaces (`HTTPClient`, `FileSystem`, `Sleeper`, `Logger`) the Go
code itself abstracts over.  Strings are manipulated through their
character lists so that every definition evaluates by kernel reduction.
-/

namespace Mdify

/-! ### Retrying fetcher (scraper.go, `FetchWithRetries`)

The `HTTPClient.Get` collaborator is modelled as a function from the
attempt index to the result of that attempt: either a transport error or
a response with a status code and a body.  Sleep durations are modelled
exactly as the `Sleeper` interface receives them: `time.Duration` values,
that is signed 64-bit nanosecond counts with Go's defined two's-complement
wraparound, computed from `time.Duration(1<<uint(attempt-1)) * time.Second`.
From attempt 35 on the product `2^(attempt-1) * 10^9` no longer fits an
int64 and the sleeps wrap. -/

/-- Result of one `client.Get` call: transport error, or response. -/
inductive FetchResult where
  | transportErr (msg : String)
  | response (status : Nat) (body : String)
deriving DecidableEq, Repr

/-- Structured form of the errors `FetchWithRetries` records. -/
inductive FetchError where
  | transport (msg : String)
  | httpStatus (status : Nat)
deriving DecidableEq, Repr

/-- Final outcome of `FetchWithRetries`: success with a body, the fast-fail
404 error, or the exhausted-retries error wrapping the last recorded
failure (the Go message is `failed after (maxRetries+1) retries: lastErr`). -/
inductive FetchOutcome where
  | ok (body : String)
  | notFound
  | exhausted (totalAttempts : Nat) (last : Option FetchError)
deriving DecidableEq, Repr

/-- Observable events of a `FetchWithRetries` run: a `sleeper.Sleep` call
(its `time.Duration` argument, in int64 nanoseconds) or a `client.Get`
call for a given attempt index. -/
inductive FetchEvent where
  | sleep (nanos : Int)
  | call (attempt : Nat)
deriving DecidableEq, Repr

/-- Trace of one `FetchWithRetries` run: the ordered events plus the outcome. -/
structure FetchTrace where
  events : List FetchEvent
  outcome : FetchOutcome
deriving DecidableEq, Repr

/-- Interpretation of an integer as a signed 64-bit value, Go's defined
two's-complement wraparound for int64 arithmetic. -/
def toInt64 (n : Int) : Int :=
  let m := n % (2 ^ 64)
  if m < 2 ^ 63 then m else m - 2 ^ 64

/-- The value of `time.Duration(1<<uint(k)) * time.Second` in nanoseconds:
the shift `1 << k` is evaluated in `time.Duration` (int64, so `2^63` wraps
negative and shift counts of 64 or more leave 0), then multiplied by
`time.Second = 10^9` with int64 wraparound.  Equal to `2^k` seconds for
`k ≤ 33`; from `k = 34` the product exceeds the int64 range and wraps. -/
def backoffNanos (k : Nat) : Int :=
  toInt64 (toInt64 ((2 : Int) ^ k) * 1000000000)

/-- Events of one loop iteration of `FetchWithRetries`: attempt 0 is an
immediate `client.Get`; attempt `k ≥ 1` first sleeps for the duration
`time.Duration(1<<uint(k-1)) * time.Second` and then calls `client.Get`. -/
def attemptEvents (attempt : Nat) : List FetchEvent :=
  if attempt = 0 then [.call attempt]
  else [.sleep (backoffNanos (attempt - 1)), .call attempt]

/-- The loop body of `FetchWithRetries`.  `fuel` counts the remaining loop
iterations (the Go loop runs `attempt = 0 .. maxRetries`, so it starts at
`maxRetries + 1`); `attempt` is the Go loop variable; `lastErr` and the
accumulated `events` thread the mutable state.  Each iteration sleeps
`2^(attempt-1)` seconds when `attempt > 0`, then calls the client; a 2xx
response returns, a 404 returns the not-found error, anything else records
the failure and continues. -/
def fetchLoop (client : Nat → FetchResult) (maxRetries : Nat) :
    Nat → Nat → Option FetchError → List FetchEvent → FetchTrace
  | 0, _, lastErr, events => ⟨events, .exhausted (maxRetries + 1) lastErr⟩
  | fuel + 1, attempt, lastErr, events =>
    let events1 := events ++ attemptEvents attempt
    match client attempt with
    | .transportErr m =>
        fetchLoop client maxRetries fuel (attempt + 1) (some (.transport m)) events1
    | .response status body =>
        if 200 ≤ status ∧ status < 300 then ⟨events1, .ok body⟩
        else if status = 404 then ⟨events1, .notFound⟩
        else fetchLoop client maxRetries fuel (attempt + 1) (some (.httpStatus status)) events1

/-- `FetchWithRetries` from scraper.go: run the loop from attempt 0 with
no recorded error. -/
def fetchWithRetries (client : Nat → FetchResult) (maxRetries : Nat) : FetchTrace :=
  fetchLoop client maxRetries (maxRetries + 1) 0 none []

/-- A fetch result is transient when the loop records it and keeps going:
a transport error, or a status outside 2xx that is not 404. -/
def isTransient : FetchResult → Bool
  | .transportErr _ => true
  | .response status _ => !(decide (200 ≤ status ∧ status < 300)) && !(status == 404)

/-- The error `FetchWithRetries` records for a failed attempt. -/
def recordedError : FetchResult → FetchError
  | .transportErr m => .transport m
  | .response status _ => .httpStatus status

/-- Sleep durations (int64 nanoseconds) appearing in an event list, in
order. -/
def sleepsOf (events : List FetchEvent) : List Int :=
  events.filterMap fun e =>
    match e with
    | .sleep d => some d
    | .call _ => none

/-- Number of `client.Get` calls in an event list. -/
def callsOf (events : List FetchEvent) : Nat :=
  events.countP fun e =>
    match e with
    | .sleep _ => false
    | .call _ => true

/-- Event list produced by a run in which every attempt fails transiently,
starting from attempt index `attempt` with `fuel` iterations left. -/
def transientEvents : Nat → Nat → List FetchEvent
  | 0, _ => []
  | fuel + 1, attempt => attemptEvents attempt ++ transientEvents fuel (attempt + 1)

/-! ### Go string and path primitives

Models of the standard-library helpers the source uses
(`strings.TrimPrefix`, `strings.HasPrefix`, `strings.HasSuffix`,
`strings.Contains`, `path/filepath.Clean`, `Join`, `Dir`, and the
percent-decoding done by `net/url`).  All work on the character list
underlying a `String` so everything reduces in the kernel. -/

/-- Model of `strings.HasPrefix s pre`. -/
def goHasPre (s pre : String) : Bool :=
  pre.data.isPrefixOf s.data

/-- Model of `strings.HasSuffix s suf`. -/
def goHasSuf (s suf : String) : Bool :=
  suf.data.isSuffixOf s.data

/-- Model of `strings.TrimPrefix s pre`: drops `pre` once when present. -/
def goTrimPre (s pre : String) : String :=
  if goHasPre s pre then String.mk (s.data.drop pre.data.length) else s

/-- Substring search over character lists, as in `strings.Contains`. -/
def listContainsSub (sub : List Char) : List Char → Bool
  | [] => sub.isEmpty
  | c :: rest => sub.isPrefixOf (c :: rest) || listContainsSub sub rest

/-- Model of `strings.Contains s sub`. -/
def goContains (s sub : String) : Bool :=
  listContainsSub sub.data s.data

/-- Split a character list on a separator character (no separator kept),
as `strings.Split` does for a one-character separator. -/
def splitOnChar (sep : Char) : List Char → List (List Char)
  | [] => [[]]
  | c :: rest =>
    let parts := splitOnChar sep rest
    if c = sep then [] :: parts
    else
      match parts with
      | [] => [[c]]
      | p :: ps => (c :: p) :: ps

/-- The element stack update of Go `path.Clean`: a `..` pops a non-`..`
element, is dropped at the root, and is kept when there is nothing to pop
in a relative path; every other element is pushed.  `out` is kept in
reverse order. -/
def cleanElems (rooted : Bool) : List String → List String → List String
  | out, [] => out
  | out, e :: rest =>
    if e = ".." then
      match out with
      | top :: out1 =>
        if top = ".." then cleanElems rooted (".." :: top :: out1) rest
        else cleanElems rooted out1 rest
      | [] =>
        if rooted then cleanElems rooted [] rest
        else cleanElems rooted [".."] rest
    else cleanElems rooted (e :: out) rest

/-- Model of Go `path.Clean` (equals `filepath.Clean` on slash-separated
paths): shortest lexically-equivalent path. -/
def pathClean (s : String) : String :=
  if s = "" then "."
  else
    let rooted := goHasPre s "/"
    let elems := ((splitOnChar '/' s.data).map String.mk).filter
      (fun e => !(e == "" || e == "."))
    let out := (cleanElems rooted [] elems).reverse
    if rooted then "/" ++ String.intercalate "/" out
    else if out.isEmpty then "." else String.intercalate "/" out

/-- Model of `filepath.Join a b` for two components: empty components are
skipped, the rest joined with a separator, and the result cleaned.  Joining
two empty strings yields the empty string without cleaning. -/
def filepathJoin (a b : String) : String :=
  if a = "" && b = "" then ""
  else if a = "" then pathClean b
  else if b = "" then pathClean a
  else pathClean (a ++ "/" ++ b)

/-- Model of `filepath.Dir p`: everything up to and including the final
separator, cleaned; `.` when there is no separator. -/
def filepathDir (p : String) : String :=
  let pre := (p.data.reverse.dropWhile (fun c => !(c == '/'))).reverse
  if pre.isEmpty then "." else pathClean (String.mk pre)

/-- Value of a hexadecimal digit, as `net/url` accepts it. -/
def hexVal (c : Char) : Option Nat :=
  if '0' ≤ c ∧ c ≤ '9' then some (c.toNat - '0'.toNat)
  else if 'a' ≤ c ∧ c ≤ 'f' then some (c.toNat - 'a'.toNat + 10)
  else if 'A' ≤ c ∧ c ≤ 'F' then some (c.toNat - 'A'.toNat + 10)
  else none

/-- Percent-decoding of a path, as `net/url` stores the decoded path in
`URL.Path`: each `%XY` hex escape becomes the character with code
`16*X + Y` (bytes are identified with characters, which agrees with Go on
ASCII data); an incomplete or non-hex escape is a parse error. -/
def percentDecode : List Char → Option (List Char)
  | [] => some []
  | '%' :: h1 :: h2 :: rest =>
    match hexVal h1, hexVal h2 with
    | some a, some b => (percentDecode rest).map (fun cs => Char.ofNat (a * 16 + b) :: cs)
    | _, _ => none
  | '%' :: _ => none
  | c :: rest => (percentDecode rest).map (fun cs => c :: cs)

/-- Split a character list at the first occurrence of the sublist `sep`,
returning the parts before and after it, or `none` when `sep` does not
occur. -/
def splitFirstSub (sep : List Char) : List Char → Option (List Char × List Char)
  | [] => if sep.isEmpty then some ([], []) else none
  | c :: rest =>
    if sep.isPrefixOf (c :: rest) then some ([], (c :: rest).drop sep.length)
    else (splitFirstSub sep rest).map (fun pr => (c :: pr.1, pr.2))

/-- Model of the part of `net/url.Parse` that `GetOutputPath` consumes: the
decoded path component of an absolute URL `scheme://host[/path][?query][#fragment]`.
The host ends at the first `/`, `?` or `#`; the path runs from that `/` (when
present) to the first `?` or `#`; percent escapes in it are decoded.  Returns
`none` when the URL is not of this absolute shape or when decoding fails,
the cases `url.Parse` rejects for the identifiers the scraper handles. -/
def parseURLPath (rawURL : String) : Option String :=
  match splitFirstSub "://".data rawURL.data with
  | some (schemeChars, hostAndRest) =>
    if schemeChars.isEmpty then none
    else
      let afterHost := hostAndRest.dropWhile (fun c => !(c == '/' || c == '?' || c == '#'))
      let rawPath :=
        match afterHost with
        | '/' :: _ => afterHost.takeWhile (fun c => !(c == '?' || c == '#'))
        | _ => []
      (percentDecode rawPath).map String.mk
  | none => none

/-! ### Filesystem model (internal/filesystem, used by scraper.go)

The `FileSystem` interface is modelled as a record of created directories
and an association list of file contents, plus two fault flags mirroring
the environmental failures the interface can surface (`Create` and
`MkdirAll` failing, as the test doubles inject with `SetCreateError` /
`SetMkdirError`). -/

/-- State of the abstract filesystem. -/
structure FSState where
  dirs : List String
  files : List (String × String)
  createErr : Bool
  mkdirErr : Bool
deriving DecidableEq, Repr

/-- Model of `FileSystem.MkdirAll`: create-if-missing — recording the
directory when absent, succeeding unchanged when it already exists; fails
only when the environment injects a fault. -/
def mkdirAll (path : String) (st : FSState) : Except String FSState :=
  if st.mkdirErr then .error "mkdir failed"
  else if st.dirs.contains path then .ok st
  else .ok { st with dirs := path :: st.dirs }

/-- Overwrite-or-insert update of an association list, the behavior of
creating and writing a file at a path. -/
def updateAssoc : List (String × String) → String → String → List (String × String)
  | [], k, v => [(k, v)]
  | (k1, v1) :: rest, k, v =>
    if k1 = k then (k, v) :: rest else (k1, v1) :: updateAssoc rest k v

/-- Model of `SaveMarkdown` from scraper.go: create (truncating) the file at
`filePath` and write `content`; fails only when the environment injects a
`Create` fault. -/
def saveMarkdown (content filePath : String) (st : FSState) : Except String FSState :=
  if st.createErr then .error ("failed to create file " ++ filePath)
  else .ok { st with files := updateAssoc st.files filePath content }

/-- The path arithmetic of `GetOutputPath` from scraper.go, separated from
its directory-creation side effect: parse the URL, strip one leading `/`
from the decoded path, substitute `index` for an empty path, append `.md`
unless already present, and join with `baseDir`. -/
def outputPathFor (rawURL baseDir : String) : Option String :=
  match parseURLPath rawURL with
  | none => none
  | some p =>
    let urlPath := goTrimPre p "/"
    let urlPath := if urlPath = "" then "index" else urlPath
    let urlPath := if goHasSuf urlPath ".md" then urlPath else urlPath ++ ".md"
    some (filepathJoin baseDir urlPath)

/-- Model of `GetOutputPath` from scraper.go: compute the output path and
ensure its parent directory exists with `MkdirAll`, returning the path and
the updated filesystem, an invalid-URL error, or a directory-creation
error. -/
def getOutputPath (rawURL baseDir : String) (st : FSState) : Except String (String × FSState) :=
  match outputPathFor rawURL baseDir with
  | none => .error ("invalid URL " ++ rawURL)
  | some outputPath =>
    match mkdirAll (filepathDir outputPath) st with
    | .error e => .error ("failed to create directory: " ++ e)
    | .ok st1 => .ok (outputPath, st1)

/-- The resolve-then-persist steps that both the sequential loop body and
the worker perform after a successful scrape: `GetOutputPath` followed by
`SaveMarkdown`. -/
def resolveAndWrite (rawURL baseDir content : String) (st : FSState) :
    Except String (String × FSState) :=
  match getOutputPath rawURL baseDir st with
  | .error e => .error e
  | .ok (p, st1) =>
    match saveMarkdown content p st1 with
    | .error e => .error e
    | .ok st2 => .ok (p, st2)

/-! ### Content extractor (scraper.go, `ExtractContent`)

The goquery engine is external: `parsed` stands for the result of
`goquery.NewDocumentFromReader` followed by `doc.Find(selector)` — a parse
error, or the list of inner-HTML strings of the matched elements in
document order.  goquery's documented `Selection.Html()` returns the HTML
contents of the *first* element of the matched set, so only the head of
that list reaches the converter; `convert` stands for the html-to-markdown
`Converter.ConvertString` engine. -/

/-- Model of `ExtractContent` from scraper.go. -/
def extractContent (parsed : Except String (List String))
    (convert : String → Except String String) (selector : String) : Except String String :=
  match parsed with
  | .error e => .error ("failed to parse HTML: " ++ e)
  | .ok found =>
    match found with
    | [] => .error ("selector " ++ selector ++ " matched no elements")
    | first :: _ =>
      match convert first with
      | .error e => .error ("failed to convert to markdown: " ++ e)
      | .ok markdown => .ok markdown

/-! ### Item processor (scraper.go, `worker` loop body and the
`scrapeSequential` loop body)

`ScrapeURL` composes `FetchWithRetries`, a body read and `ExtractContent`;
per job it is abstracted as the oracle `scrape : String → Except String
String` from identifiers to markdown.  The processor then resolves the
output path and persists, stopping at the first failure. -/

/-- Job record from scraper.go. -/
structure Job where
  url : String
  selector : String
  output : String
deriving DecidableEq, Repr

/-- Result record from scraper.go (`OutputPath` defaults to the empty
string, `Error` to nil, as the Go zero values). -/
structure Result where
  url : String
  success : Bool
  error : Option String
  outputPath : String
deriving DecidableEq, Repr

/-- The per-job body of `worker` from scraper.go: scrape, then
`GetOutputPath`, then `SaveMarkdown`; the first failing step produces a
failed `Result` carrying the triggering error and later steps do not
run. -/
def processJob (scrape : String → Except String String) (job : Job) (st : FSState) :
    Result × FSState :=
  match scrape job.url with
  | .error e =>
    ({ url := job.url, success := false, error := some e, outputPath := "" }, st)
  | .ok markdown =>
    match getOutputPath job.url job.output st with
    | .error e =>
      ({ url := job.url, success := false,
         error := some ("error determining output path: " ++ e), outputPath := "" }, st)
    | .ok (outputPath, st1) =>
      match saveMarkdown markdown outputPath st1 with
      | .error e =>
        ({ url := job.url, success := false,
           error := some ("error saving file: " ++ e), outputPath := "" }, st1)
      | .ok st2 =>
        ({ url := job.url, success := true, error := none, outputPath := outputPath }, st2)

/-- Log lines the batch orchestrator emits. -/
inductive LogLine where
  | savedOk (path : String)
  | itemError (url : String) (msg : String)
  | startingWorkers (workers urls : Nat)
  | completed (successCount errorCount : Nat)
deriving DecidableEq, Repr

/-- Running state of the `scrapeSequential` loop: the two counters, the
filesystem and the log. -/
structure BatchState where
  successCount : Nat
  errorCount : Nat
  fs : FSState
  logs : List LogLine
deriving DecidableEq, Repr

/-- One iteration of the `scrapeSequential` loop: the same three steps as
the worker body, logging the error or the saved path and bumping the
matching counter; an item failure only increments `errorCount` and moves
on. -/
def seqProcessOne (scrape : String → Except String String) (output : String)
    (b : BatchState) (rawURL : String) : BatchState :=
  match scrape rawURL with
  | .error e =>
    { b with errorCount := b.errorCount + 1, logs := b.logs ++ [.itemError rawURL e] }
  | .ok markdown =>
    match getOutputPath rawURL output b.fs with
    | .error e =>
      { b with errorCount := b.errorCount + 1, logs := b.logs ++ [.itemError rawURL e] }
    | .ok (outputPath, fs1) =>
      match saveMarkdown markdown outputPath fs1 with
      | .error e =>
        { b with
          fs := fs1
          errorCount := b.errorCount + 1
          logs := b.logs ++ [.itemError rawURL e] }
      | .ok fs2 =>
        { b with
          fs := fs2
          successCount := b.successCount + 1
          logs := b.logs ++ [.savedOk outputPath] }

/-- `scrapeSequential` from scraper.go: fold the loop over the URLs in
input order, then log the summary line; the Go function always returns
`nil`, hence the model always returns `.ok`. -/
def scrapeSequential (scrape : String → Except String String) (urls : List String)
    (output : String) (fs : FSState) : Except String BatchState :=
  let b := urls.foldl (seqProcessOne scrape output)
    { successCount := 0, errorCount := 0, fs := fs, logs := [] }
  .ok { b with logs := b.logs ++ [.completed b.successCount b.errorCount] }

/-! ### Batch orchestrator, concurrent branch (scraper.go,
`scrapeConcurrent` and `worker`)

The `jobs` channel is pre-populated with every URL and closed before the
collector runs; each worker repeatedly takes one job and later pushes
exactly one `Result` for it.  The scheduler's freedom is modelled as a
step relation: any worker may take the next queued job or finish one it
holds, in any interleaving; the Go pool's executions (any worker count)
are all traces of this relation.  `process` is the worker's per-job body
(`processJob` specialised to a filesystem snapshot, or any per-identifier
outcome function). -/

/-- Orchestrator state: the queued jobs, the jobs currently held by
workers, and the results pushed so far. -/
structure PoolState where
  pending : List String
  inFlight : List String
  results : List Result
deriving DecidableEq, Repr

/-- One scheduling step of the pool. -/
inductive PoolStep (process : String → Result) : PoolState → PoolState → Prop where
  | take (u : String) (rest inFlight : List String) (results : List Result) :
      PoolStep process ⟨u :: rest, inFlight, results⟩ ⟨rest, u :: inFlight, results⟩
  | finish (u : String) (pending infl1 infl2 : List String) (results : List Result) :
      PoolStep process ⟨pending, infl1 ++ u :: infl2, results⟩
        ⟨pending, infl1 ++ infl2, results ++ [process u]⟩

/-- Reflexive-transitive closure of pool steps: the reachable schedules. -/
inductive PoolReaches (process : String → Result) : PoolState → PoolState → Prop where
  | refl (s : PoolState) : PoolReaches process s s
  | step {s t u : PoolState} :
      PoolStep process s t → PoolReaches process t u → PoolReaches process s u

/-- The multiset of identifiers present in a pool state, each counted
once wherever it currently sits. -/
def poolItems (s : PoolState) : List String :=
  s.pending ++ s.inFlight ++ s.results.map Result.url

/-- Invariant of the pool: the identifiers are conserved as a multiset,
and every pushed result is the processing of its own identifier. -/
def poolInv (process : String → Result) (urls : List String) (s : PoolState) : Prop :=
  (poolItems s).Perm urls ∧ ∀ r ∈ s.results, r = process r.url

/-- The collector loop body of `scrapeConcurrent`: log each result and
bump the matching counter.  A nil Go error prints as `<nil>`. -/
def errText : Option String → String
  | none => "<nil>"
  | some e => e

def collectStep (acc : Nat × Nat × List LogLine) (r : Result) : Nat × Nat × List LogLine :=
  if r.success then (acc.1 + 1, acc.2.1, acc.2.2 ++ [.savedOk r.outputPath])
  else (acc.1, acc.2.1 + 1, acc.2.2 ++ [.itemError r.url (errText r.error)])

/-- The collection phase of `scrapeConcurrent`: the worker-startup log,
the drain of the results channel, and the summary line; the Go function
always returns `nil`, hence the model always returns `.ok`. -/
def scrapeConcurrentCollect (numWorkers totalURLs : Nat) (results : List Result) :
    Except String (Nat × Nat × List LogLine) :=
  let acc := results.foldl collectStep (0, 0, [.startingWorkers numWorkers totalURLs])
  .ok (acc.1, acc.2.1, acc.2.2 ++ [.completed acc.1 acc.2.1])

/-! ### Static markdown server (server.go, `MarkdownHandler.ServeHTTP`) -/

/-- Filesystem the server reads: file contents by absolute path, plus the
read-fault flag the test doubles inject with `SetReadError`; `Stat`
reports a file as existing exactly when it is present. -/
structure ServerFS where
  files : List (String × String)
  readErr : Bool
deriving DecidableEq, Repr

/-- Outcome of one request, as observable on the response writer. -/
inductive ServerResponse where
  | methodNotAllowed
  | badRequest
  | notFound (path : String)
  | internalError (path : String)
  | serve (path : String) (content : String)
deriving DecidableEq, Repr

/-- The path computation of `ServeHTTP`: strip one leading `/`, default an
empty path to `index.md`, append `.md` when absent, join with the base
directory. -/
def resolveRequestPath (baseDir urlPath : String) : String :=
  let requestPath := goTrimPre urlPath "/"
  let requestPath := if requestPath = "" then "index.md" else requestPath
  let requestPath := if goHasSuf requestPath ".md" then requestPath
    else requestPath ++ ".md"
  filepathJoin baseDir requestPath

/-- Model of `MarkdownHandler.ServeHTTP`: non-GET methods are refused; the
request path is resolved against the base directory; a resolved path that
does not have the base directory as a string prefix is answered with the
400 client error before any filesystem access; otherwise the file is
statted, read and served with the caching and content-type headers. -/
def serveHTTP (baseDir : String) (fs : ServerFS) (method urlPath : String) : ServerResponse :=
  if method ≠ "GET" then .methodNotAllowed
  else
    let filePath := resolveRequestPath baseDir urlPath
    if !(goHasPre filePath baseDir) then .badRequest
    else
      match fs.files.lookup filePath with
      | none => .notFound filePath
      | some content =>
        if fs.readErr then .internalError filePath
        else .serve filePath content

/-- A resolved path escapes the base directory when it is neither the base
directory itself nor strictly below it. -/
def escapesBase (baseDir path : String) : Bool :=
  !(path == baseDir || goHasPre path (baseDir ++ "/"))

/-! ### Resource discovery (pkg/sitemap)

The `encoding/xml` decoder is external.  A fetched body is modelled by how
the decoder reads it: either malformed XML — the decoder stops with a
syntax error, whose message (`XML syntax error on line …`) never holds the
phrase `expected element type` — or a well-formed document with a root
element name and the `<loc>` values of its `<url>` children.  Decoding a
well-formed document into the `Sitemap` struct (whose `XMLName` is
`urlset`) fails with `expected element type <urlset> but have <root>`
when the root element differs. -/

/-- Parse of a fetched sitemap body. -/
inductive XMLDoc where
  | malformed (msg : String)
  | wellFormed (root : String) (urls : List String)
deriving DecidableEq, Repr

/-- Reply of `HTTPClient.Get` for the sitemap fetch. -/
inductive HTTPReply where
  | transportErr (msg : String)
  | response (status : Nat) (body : XMLDoc)
deriving DecidableEq, Repr

/-- Log lines of the sitemap service. -/
inductive SitemapLog where
  | fetching
  | warningNotSitemap
  | foundURLs (n : Nat)
  | filtered (n : Nat) (filter : String)
deriving DecidableEq, Repr

/-- Model of `xml.Decoder.Decode` into the `Sitemap` struct. -/
def decodeSitemap (doc : XMLDoc) : Except String (List String) :=
  match doc with
  | .malformed msg => .error msg
  | .wellFormed root urls =>
    if root = "urlset" then .ok urls
    else .error ("expected element type <urlset> but have <" ++ root ++ ">")

/-- Model of `FetchSitemap` from pkg/sitemap: fetch, require a 2xx status,
decode; a decode error whose message holds `expected element type` is
downgraded to a warning log with an empty sitemap instead of an error. -/
def fetchSitemap (reply : HTTPReply) : Except String (List String) × List SitemapLog :=
  match reply with
  | .transportErr m => (.error ("failed to fetch sitemap: " ++ m), [.fetching])
  | .response status body =>
    if status < 200 ∨ 300 ≤ status then
      (.error ("sitemap request failed with status " ++ toString status), [.fetching])
    else
      match decodeSitemap body with
      | .error e =>
        if goContains e "expected element type" then
          (.ok [], [.fetching, .warningNotSitemap])
        else (.error ("failed to parse sitemap XML: " ++ e), [.fetching])
      | .ok urls => (.ok urls, [.fetching, .foundURLs urls.length])

/-- Model of `FilterURLs`: keep the locations containing the filter; an
empty filter keeps everything. -/
def filterURLs (urls : List String) (pathFilter : String) : List String :=
  urls.filter (fun u => pathFilter == "" || goContains u pathFilter)

/-- Model of `GetURLsFromSitemap`: fetch and parse, then filter. -/
def getURLsFromSitemap (reply : HTTPReply) (pathFilter : String) :
    Except String (List String) :=
  match (fetchSitemap reply).1 with
  | .error e => .error e
  | .ok urls => .ok (filterURLs urls pathFilter)

theorem fetchLoop_step_transient (client : Nat → FetchResult) (maxRetries fuel attempt : Nat)
    (lastErr : Option FetchError) (events : List FetchEvent)
    (ht : isTransient (client attempt) = true) :
    fetchLoop client maxRetries (fuel + 1) attempt lastErr events =
      fetchLoop client maxRetries fuel (attempt + 1)
        (some (recordedError (client attempt))) (events ++ attemptEvents attempt) := by
  cases hc : client attempt with
  | transportErr m =>
    simp [fetchLoop, hc, recordedError]
  | response status body =>
    rw [hc] at ht
    simp only [isTransient, Bool.and_eq_true, Bool.not_eq_true', decide_eq_false_iff_not,
      beq_eq_false_iff_ne, ne_eq] at ht
    simp [fetchLoop, hc, ht.1, ht.2, recordedError]

theorem fetchLoop_transient (client : Nat → FetchResult) (maxRetries : Nat)
    (h : ∀ n, isTransient (client n) = true) :
    ∀ fuel attempt lastErr events,
      fetchLoop client maxRetries (fuel + 1) attempt lastErr events =
        ⟨events ++ transientEvents (fuel + 1) attempt,
         .exhausted (maxRetries + 1) (some (recordedError (client (attempt + fuel))))⟩ := by
  intro fuel
  induction fuel with
  | zero =>
    intro attempt lastErr events
    rw [fetchLoop_step_transient client maxRetries 0 attempt lastErr events (h attempt)]
    simp [fetchLoop, transientEvents]
  | succ fuel ih =>
    intro attempt lastErr events
    rw [fetchLoop_step_transient client maxRetries (fuel + 1) attempt lastErr events (h attempt),
      ih]
    have harith : attempt + 1 + fuel = attempt + (fuel + 1) := by omega
    simp [transientEvents, harith, List.append_assoc]

theorem transientEvents_shift (fuel : Nat) :
    ∀ attempt, transientEvents fuel (attempt + 1) =
      (List.range fuel).flatMap
        (fun i => [.sleep (backoffNanos (attempt + i)), .call (attempt + i + 1)]) := by
  induction fuel with
  | zero => intro attempt; simp [transientEvents]
  | succ fuel ih =>
    intro attempt
    rw [List.range_succ_eq_map]
    simp only [transientEvents, attemptEvents, Nat.succ_ne_zero, if_false, List.flatMap_cons,
      Nat.add_zero, List.flatMap_map, Nat.add_sub_cancel, ih (attempt + 1)]
    congr 1
    apply List.flatMap_congr
    intro i _
    simp [Nat.succ_eq_add_one, Nat.add_assoc, Nat.add_comm, Nat.add_left_comm]

theorem transientEvents_closed (N : Nat) :
    transientEvents (N + 1) 0 =
      .call 0 ::
        (List.range N).flatMap (fun k => [.sleep (backoffNanos k), .call (k + 1)]) := by
  have h := transientEvents_shift N 0
  simp only [Nat.zero_add] at h
  simp [transientEvents, attemptEvents, h]

theorem sleepsOf_flatMap (N : Nat) :
    sleepsOf ((List.range N).flatMap (fun k => [.sleep (backoffNanos k), .call (k + 1)])) =
      (List.range N).map backoffNanos := by
  induction N with
  | zero => rfl
  | succ N ih =>
    rw [List.range_succ, List.flatMap_append, List.map_append]
    unfold sleepsOf at ih ⊢
    rw [List.filterMap_append, ih]
    rfl

theorem callsOf_flatMap (N : Nat) :
    callsOf ((List.range N).flatMap (fun k => [.sleep (backoffNanos k), .call (k + 1)])) =
      N := by
  induction N with
  | zero => rfl
  | succ N ih =>
    rw [List.range_succ, List.flatMap_append]
    unfold callsOf at ih ⊢
    rw [List.countP_append, ih]
    rfl

set_option maxRecDepth 20000 in
/-- Counterexample to claim C2 as stated: with `maxRetries = 35` and a
client that always answers HTTP 500, the recorded sleep durations are not
`2^0, …, 2^34` seconds.  The source computes
`time.Duration(1<<uint(attempt-1)) * time.Second` in int64, and before
attempt 35 the product `2^34 * 10^9` ns exceeds the int64 range: the
`Sleeper` receives the wrapped duration `-1266874889709551616` ns instead
of `2^34` seconds (`17179869184000000000` ns). -/
theorem fetch_backoff_wraps_at_35 :
    sleepsOf (fetchWithRetries (fun _ => .response 500 "err") 35).events ≠
      (List.range 35).map (fun k => ((2 : Int) ^ k) * 1000000000) ∧
    (sleepsOf (fetchWithRetries (fun _ => .response 500 "err") 35).events).getLast? =
      some (-1266874889709551616) ∧
    ((2 : Int) ^ 34) * 1000000000 = 17179869184000000000 := by decide

set_option maxRecDepth 20000 in
theorem backoffNanos_small : ∀ k < 34, backoffNanos k = ((2 : Int) ^ k) * 1000000000 := by
  decide

/-- Claim C2, amended: for every `maxRetries = N ≥ 0`, if every fetch
attempt fails transiently (transport error or non-2xx, non-404 status),
`FetchWithRetries` performs exactly `N + 1` attempts, sleeps exactly `N`
times — the sleep for attempt `k ≥ 1` immediately precedes that attempt,
attempt `0` is immediate — and then fails with the exhausted-retries error
wrapping the last recorded failure.  The duration of the sleep before
attempt `k` is the int64 value of `2^(k-1) * 10^9` nanoseconds: exactly
`2^(k-1)` seconds while `k - 1 ≤ 33`, and a wrapped duration (no longer
`2^(k-1)` seconds) from `k - 1 = 34` on. -/
theorem fetch_transient_retry_schedule (client : Nat → FetchResult) (N : Nat)
    (h : ∀ n, isTransient (client n) = true) :
    (fetchWithRetries client N).events =
      .call 0 ::
        (List.range N).flatMap (fun k => [.sleep (backoffNanos k), .call (k + 1)]) ∧
    sleepsOf (fetchWithRetries client N).events = (List.range N).map backoffNanos ∧
    (∀ k < 34, backoffNanos k = ((2 : Int) ^ k) * 1000000000) ∧
    callsOf (fetchWithRetries client N).events = N + 1 ∧
    (fetchWithRetries client N).outcome =
      .exhausted (N + 1) (some (recordedError (client N))) := by
  have hrun := fetchLoop_transient client N h N 0 none []
  simp only [Nat.zero_add, List.nil_append] at hrun
  have hev : (fetchWithRetries client N).events =
      .call 0 ::
        (List.range N).flatMap (fun k => [.sleep (backoffNanos k), .call (k + 1)]) := by
    rw [fetchWithRetries, hrun, ← transientEvents_closed]
  have hout : (fetchWithRetries client N).outcome =
      .exhausted (N + 1) (some (recordedError (client N))) := by
    rw [fetchWithRetries, hrun]
  refine ⟨hev, ?_, backoffNanos_small, ?_, hout⟩
  · rw [hev]
    have hskip : sleepsOf (.call 0 ::
        (List.range N).flatMap (fun k => [.sleep (backoffNanos k), .call (k + 1)])) =
        sleepsOf ((List.range N).flatMap
          (fun k => [.sleep (backoffNanos k), .call (k + 1)])) := rfl
    rw [hskip, sleepsOf_flatMap]
  · rw [hev]
    unfold callsOf
    rw [List.countP_cons]
    have := callsOf_flatMap N
    unfold callsOf at this
    rw [this]
    rfl

/-- Witness for C2: `maxRetries = 3` with a client that always answers
HTTP 500; exactly 4 attempts, sleeps of 1, 2 and 4 seconds (in int64
nanoseconds), exhausted error wrapping the HTTP 500 failure. -/
theorem fetch_transient_retry_schedule_witness :
    (fetchWithRetries (fun _ => .response 500 "err") 3).events =
      [.call 0, .sleep 1000000000, .call 1, .sleep 2000000000, .call 2,
        .sleep 4000000000, .call 3] ∧
    sleepsOf (fetchWithRetries (fun _ => .response 500 "err") 3).events =
      [1000000000, 2000000000, 4000000000] ∧
    backoffNanos 0 = ((2 : Int) ^ 0) * 1000000000 ∧
    callsOf (fetchWithRetries (fun _ => .response 500 "err") 3).events = 4 ∧
    (fetchWithRetries (fun _ => .response 500 "err") 3).outcome =
      .exhausted 4 (some (.httpStatus 500)) := by
  obtain ⟨h1, h2, h3, h4, h5⟩ :=
    fetch_transient_retry_schedule (fun _ => .response 500 "err") 3 (fun _ => rfl)
  refine ⟨?_, ?_, h3 0 (by decide), ?_, ?_⟩
  · rw [h1]; decide
  · rw [h2]; decide
  · rw [h4]
  · rw [h5]; decide

/-- Claim C3: for every `maxRetries ≥ 0`, a 404 response on the first
attempt makes `FetchWithRetries` terminate immediately with the not-found
error after exactly 1 attempt and 0 sleeps, regardless of the remaining
retry budget. -/
theorem fetch_notFound_fast_fail (client : Nat → FetchResult) (N : Nat) (body : String)
    (h : client 0 = .response 404 body) :
    (fetchWithRetries client N).events = [.call 0] ∧
    sleepsOf (fetchWithRetries client N).events = [] ∧
    callsOf (fetchWithRetries client N).events = 1 ∧
    (fetchWithRetries client N).outcome = .notFound := by
  have hrun : fetchWithRetries client N = ⟨[.call 0], .notFound⟩ := by
    rw [fetchWithRetries]
    simp [fetchLoop, h, attemptEvents]
  rw [hrun]
  exact ⟨rfl, rfl, rfl, rfl⟩

/-- Witness for C3: a client answering 404 with `maxRetries = 5`. -/
theorem fetch_notFound_fast_fail_witness :
    (fetchWithRetries (fun _ => .response 404 "nf") 5).events = [.call 0] ∧
    sleepsOf (fetchWithRetries (fun _ => .response 404 "nf") 5).events = [] ∧
    callsOf (fetchWithRetries (fun _ => .response 404 "nf") 5).events = 1 ∧
    (fetchWithRetries (fun _ => .response 404 "nf") 5).outcome = .notFound :=
  fetch_notFound_fast_fail (fun _ => .response 404 "nf") 5 "nf" rfl

/-- Claim C6: the output path resolver maps every parseable identifier to
its decoded path component with the leading separator stripped, `index`
substituted for an empty path and `.md` appended when absent, joined with
the output root; in particular the four concrete resolutions from the spec,
including decoding of percent-encoded segments. -/
theorem output_path_resolution :
    (∀ rawURL baseDir p, parseURLPath rawURL = some p →
      outputPathFor rawURL baseDir =
        some (filepathJoin baseDir
          (let q1 := goTrimPre p "/"
           let q2 := if q1 = "" then "index" else q1
           if goHasSuf q2 ".md" then q2 else q2 ++ ".md"))) ∧
    outputPathFor "https://x/a/b" "/out" = some "/out/a/b.md" ∧
    outputPathFor "https://x/" "/out" = some "/out/index.md" ∧
    outputPathFor "https://x" "/out" = some "/out/index.md" ∧
    outputPathFor "https://x/a%20b" "/out" = some "/out/a b.md" := by
  refine ⟨?_, by decide, by decide, by decide, by decide⟩
  intro rawURL baseDir p h
  unfold outputPathFor
  rw [h]

/-- Witness for C6's universally quantified clause, instantiated at
`https://x/a/b` whose decoded path component is `/a/b`. -/
theorem output_path_resolution_witness :
    parseURLPath "https://x/a/b" = some "/a/b" ∧
    outputPathFor "https://x/a/b" "/out" =
      some (filepathJoin "/out"
        (let q1 := goTrimPre "/a/b" "/"
         let q2 := if q1 = "" then "index" else q1
         if goHasSuf q2 ".md" then q2 else q2 ++ ".md")) :=
  ⟨by decide, output_path_resolution.1 "https://x/a/b" "/out" "/a/b" (by decide)⟩

theorem updateAssoc_idem (l : List (String × String)) (k v : String) :
    updateAssoc (updateAssoc l k v) k v = updateAssoc l k v := by
  induction l with
  | nil => simp [updateAssoc]
  | cons hd tl ih =>
    obtain ⟨k1, v1⟩ := hd
    by_cases hk : k1 = k
    · simp [updateAssoc, hk]
    · simp [updateAssoc, hk, ih]

theorem mkdirAll_ok_facts (d : String) (st st1 : FSState)
    (h : mkdirAll d st = .ok st1) :
    st.mkdirErr = false ∧ st1.mkdirErr = false ∧ st1.createErr = st.createErr ∧
    st1.files = st.files ∧ st1.dirs.contains d = true := by
  unfold mkdirAll at h
  by_cases hmk : st.mkdirErr
  · simp [hmk] at h
  · have hmkf : st.mkdirErr = false := by simpa using hmk
    simp only [hmkf, Bool.false_eq_true, if_false] at h
    by_cases hc : st.dirs.contains d
    · simp only [hc, if_true, Except.ok.injEq] at h
      subst h
      exact ⟨hmkf, hmkf, rfl, rfl, hc⟩
    · have hcf : st.dirs.contains d = false := by simpa using hc
      simp only [hcf, Bool.false_eq_true, if_false, Except.ok.injEq] at h
      subst h
      refine ⟨hmkf, rfl, rfl, rfl, ?_⟩
      simp [List.contains_cons]

theorem mkdirAll_already_exists (d : String) (st : FSState)
    (hmk : st.mkdirErr = false) (hc : st.dirs.contains d = true) :
    mkdirAll d st = .ok st := by
  unfold mkdirAll
  rw [hmk, hc]
  simp

theorem saveMarkdown_ok_facts (content p : String) (st st1 : FSState)
    (h : saveMarkdown content p st = .ok st1) :
    st.createErr = false ∧ st1.dirs = st.dirs ∧ st1.createErr = false ∧
    st1.mkdirErr = st.mkdirErr ∧ st1.files = updateAssoc st.files p content := by
  unfold saveMarkdown at h
  by_cases hce : st.createErr
  · simp [hce] at h
  · have hcef : st.createErr = false := by simpa using hce
    simp only [hcef, Bool.false_eq_true, if_false, Except.ok.injEq] at h
    subst h
    exact ⟨hcef, rfl, rfl, rfl, rfl⟩

theorem getOutputPath_ok_facts (rawURL baseDir : String) (st : FSState)
    (p : String) (stA : FSState)
    (h : getOutputPath rawURL baseDir st = .ok (p, stA)) :
    outputPathFor rawURL baseDir = some p ∧ mkdirAll (filepathDir p) st = .ok stA := by
  unfold getOutputPath at h
  cases hop : outputPathFor rawURL baseDir with
  | none =>
    simp only [hop] at h
    exact Except.noConfusion h
  | some p0 =>
    simp only [hop] at h
    cases hmk : mkdirAll (filepathDir p0) st with
    | error e =>
      simp only [hmk] at h
      exact Except.noConfusion h
    | ok stB =>
      simp only [hmk, Except.ok.injEq, Prod.mk.injEq] at h
      obtain ⟨h1, h2⟩ := h
      subst h1
      subst h2
      exact ⟨rfl, hmk⟩

/-- Claim C8: resolving and writing the same identifier with the same
content twice is idempotent: both calls resolve to the same path,
directory creation is create-if-missing (it succeeds without change when
the directory already exists), and the second write overwrites the same
file without error, leaving the filesystem exactly as after the first
write. -/
theorem resolve_write_idempotent (rawURL baseDir content : String)
    (st st1 : FSState) (p : String)
    (h : resolveAndWrite rawURL baseDir content st = .ok (p, st1)) :
    resolveAndWrite rawURL baseDir content st1 = .ok (p, st1) ∧
    (∀ d s, FSState.mkdirErr s = false → List.contains s.dirs d = true →
      mkdirAll d s = .ok s) := by
  refine ⟨?_, fun d s h1 h2 => mkdirAll_already_exists d s h1 h2⟩
  unfold resolveAndWrite at h
  cases hgop : getOutputPath rawURL baseDir st with
  | error e =>
    simp only [hgop] at h
    exact Except.noConfusion h
  | ok pr =>
    obtain ⟨p0, stA⟩ := pr
    simp only [hgop] at h
    cases hsv : saveMarkdown content p0 stA with
    | error e =>
      simp only [hsv] at h
      exact Except.noConfusion h
    | ok st2 =>
      simp only [hsv, Except.ok.injEq, Prod.mk.injEq] at h
      obtain ⟨hp0, hst2⟩ := h
      obtain ⟨hop, hmk⟩ := getOutputPath_ok_facts rawURL baseDir st p0 stA hgop
      obtain ⟨hm0, hm1, hm2, hm3, hm4⟩ := mkdirAll_ok_facts (filepathDir p0) st stA hmk
      obtain ⟨hs0, hs1, hs2, hs3, hs4⟩ := saveMarkdown_ok_facts content p0 stA st2 hsv
      have hmk2 : mkdirAll (filepathDir p0) st2 = .ok st2 :=
        mkdirAll_already_exists _ _ (hs3.trans hm1) (by rw [hs1]; exact hm4)
      have hfiles : updateAssoc st2.files p0 content = st2.files := by
        rw [hs4, updateAssoc_idem]
      have hsv2 : saveMarkdown content p0 st2 = .ok st2 := by
        unfold saveMarkdown
        rw [hs2, hfiles]
        simp only [Bool.false_eq_true, if_false, Except.ok.injEq]
        obtain ⟨d2, f2, c2, m2⟩ := st2
        dsimp only at hs2 ⊢
        subst hs2
        rfl
      have hg2 : getOutputPath rawURL baseDir st2 = .ok (p0, st2) := by
        unfold getOutputPath
        simp only [hop, hmk2]
      rw [← hp0, ← hst2]
      unfold resolveAndWrite
      simp only [hg2, hsv2]

/-- Claim C10: when the selector matches two or more elements,
`ExtractContent` converts only the inner content of the first matched
element: its result is exactly that of a document whose selection holds
the first match alone, whatever the second and later matches hold, so
those matches contribute nothing to the output. -/
theorem extract_converts_first_match_only (first second : String) (rest : List String)
    (convert : String → Except String String) (selector : String) :
    extractContent (.ok (first :: second :: rest)) convert selector =
      extractContent (.ok [first]) convert selector := rfl

/-- Claim C4: in the worker body and in the sequential loop body alike, a
failing fetch or extraction stops the job with a failed outcome carrying
the triggering error, and the filesystem — in particular its set of files
— is left untouched: no output file is created for that identifier. -/
theorem item_failure_stops_without_write :
    (∀ (scrape : String → Except String String) (job : Job) (st : FSState) (e : String),
      scrape job.url = .error e →
      (processJob scrape job st).1.success = false ∧
      (processJob scrape job st).1.error = some e ∧
      (processJob scrape job st).2 = st) ∧
    (∀ (scrape : String → Except String String) (output : String) (b : BatchState)
       (rawURL e : String),
      scrape rawURL = .error e →
      seqProcessOne scrape output b rawURL =
        { b with errorCount := b.errorCount + 1,
                 logs := b.logs ++ [.itemError rawURL e] }) := by
  constructor
  · intro scrape job st e h
    unfold processJob
    simp [h]
  · intro scrape output b rawURL e h
    unfold seqProcessOne
    simp only [h]

/-- Witness for C4: a scrape oracle that always fails, on a concrete job
and an empty filesystem. -/
theorem item_failure_stops_without_write_witness :
    ((processJob (fun _ => .error "boom") ⟨"https://x/a", ".c", "/out"⟩
        ⟨[], [], false, false⟩).1.success = false ∧
      (processJob (fun _ => .error "boom") ⟨"https://x/a", ".c", "/out"⟩
        ⟨[], [], false, false⟩).1.error = some "boom" ∧
      (processJob (fun _ => .error "boom") ⟨"https://x/a", ".c", "/out"⟩
        ⟨[], [], false, false⟩).2 = ⟨[], [], false, false⟩) ∧
    seqProcessOne (fun _ => .error "boom") "/out" ⟨0, 0, ⟨[], [], false, false⟩, []⟩
        "https://x/a" =
      ⟨0, 1, ⟨[], [], false, false⟩, [.itemError "https://x/a" "boom"]⟩ :=
  ⟨item_failure_stops_without_write.1 (fun _ => .error "boom")
      ⟨"https://x/a", ".c", "/out"⟩ ⟨[], [], false, false⟩ "boom" rfl,
   item_failure_stops_without_write.2 (fun _ => .error "boom") "/out"
      ⟨0, 0, ⟨[], [], false, false⟩, []⟩ "https://x/a" "boom" rfl⟩

/-- Witness for C8 at a concrete identifier, root, content and empty
filesystem. -/
theorem resolve_write_idempotent_witness :
    resolveAndWrite "https://x/a" "/out" "hi" ⟨[], [], false, false⟩ =
      .ok ("/out/a.md", ⟨["/out"], [("/out/a.md", "hi")], false, false⟩) ∧
    resolveAndWrite "https://x/a" "/out" "hi"
        ⟨["/out"], [("/out/a.md", "hi")], false, false⟩ =
      .ok ("/out/a.md", ⟨["/out"], [("/out/a.md", "hi")], false, false⟩) :=
  ⟨rfl,
   (resolve_write_idempotent "https://x/a" "/out" "hi" ⟨[], [], false, false⟩
      ⟨["/out"], [("/out/a.md", "hi")], false, false⟩ "/out/a.md" rfl).1⟩

theorem poolStep_perm (process : String → Result) (hid : ∀ u, (process u).url = u)
    {s t : PoolState} (hst : PoolStep process s t) :
    (poolItems t).Perm (poolItems s) := by
  cases hst with
  | take u rest inFlight results =>
    unfold poolItems
    simp only [List.cons_append, List.append_assoc]
    exact List.perm_middle
  | finish u pending infl1 infl2 results =>
    unfold poolItems
    simp only [List.map_append, List.map_cons, List.map_nil, List.append_assoc,
      List.cons_append, hid u]
    refine List.Perm.append_left pending ?_
    refine List.Perm.append_left infl1 ?_
    rw [← List.append_assoc]
    exact List.perm_append_singleton u (infl2 ++ results.map Result.url)

theorem poolStep_inv (process : String → Result) (hid : ∀ u, (process u).url = u)
    (urls : List String) {s t : PoolState}
    (hst : PoolStep process s t) (h : poolInv process urls s) : poolInv process urls t := by
  obtain ⟨hperm, hres⟩ := h
  refine ⟨(poolStep_perm process hid hst).trans hperm, ?_⟩
  cases hst with
  | take u rest inFlight results => exact hres
  | finish u pending infl1 infl2 results =>
    intro r hr
    simp only [List.mem_append, List.mem_singleton] at hr
    cases hr with
    | inl hr => exact hres r hr
    | inr hr =>
      subst hr
      rw [hid u]

theorem poolReaches_inv (process : String → Result) (hid : ∀ u, (process u).url = u)
    (urls : List String) {s t : PoolState}
    (h : PoolReaches process s t) (hinv : poolInv process urls s) :
    poolInv process urls t := by
  induction h with
  | refl s => exact hinv
  | step hst _ ih => exact ih (poolStep_inv process hid urls hst hinv)

/-- A complete run of the pool: every queued job was taken and finished;
the collected results are then a permutation of the per-identifier
outcomes, so each submitted identifier yields exactly one result. -/
theorem poolReaches_complete (process : String → Result) (hid : ∀ u, (process u).url = u)
    (urls : List String) (results : List Result)
    (h : PoolReaches process ⟨urls, [], []⟩ ⟨[], [], results⟩) :
    results.Perm (urls.map process) := by
  have hinv0 : poolInv process urls ⟨urls, [], []⟩ := by
    constructor
    · unfold poolItems
      simp
    · intro r hr
      simp at hr
  obtain ⟨hperm, hres⟩ := poolReaches_inv process hid urls h hinv0
  unfold poolItems at hperm
  simp only [List.nil_append] at hperm
  have hself : results = (results.map Result.url).map process := by
    rw [List.map_map]
    have : results.map (process ∘ Result.url) = results.map id := by
      apply List.map_congr_left
      intro r hr
      exact (hres r hr).symm
    rw [this, List.map_id]
  rw [hself]
  exact hperm.map process

theorem collect_counts_sum (results : List Result) :
    ∀ acc : Nat × Nat × List LogLine,
      (results.foldl collectStep acc).1 + (results.foldl collectStep acc).2.1 =
        acc.1 + acc.2.1 + results.length := by
  induction results with
  | nil => intro acc; simp
  | cons r rest ih =>
    intro acc
    rw [List.foldl_cons, ih]
    have hone : (collectStep acc r).1 + (collectStep acc r).2.1 = acc.1 + acc.2.1 + 1 := by
      unfold collectStep
      rcases Bool.eq_false_or_eq_true r.success with hs | hs <;> simp [hs] <;> omega
    simp only [List.length_cons]
    omega

theorem seq_counts (scrape : String → Except String String) (output : String) :
    ∀ (urls : List String) (b : BatchState),
      (urls.foldl (seqProcessOne scrape output) b).successCount +
        (urls.foldl (seqProcessOne scrape output) b).errorCount =
        b.successCount + b.errorCount + urls.length := by
  intro urls
  induction urls with
  | nil => intro b; simp
  | cons u rest ih =>
    intro b
    rw [List.foldl_cons, ih]
    have hone : (seqProcessOne scrape output b u).successCount +
        (seqProcessOne scrape output b u).errorCount =
        b.successCount + b.errorCount + 1 := by
      unfold seqProcessOne
      cases hscr : scrape u with
      | error e => simp <;> omega
      | ok md =>
        cases hgo : getOutputPath u output b.fs with
        | error e => simp <;> omega
        | ok pr =>
          obtain ⟨p, fs1⟩ := pr
          cases hsv : saveMarkdown md p fs1 with
          | error e => simp only [hsv]; omega
          | ok fs2 => simp only [hsv]; omega
    simp only [List.length_cons]
    omega

/-- Claim C1: in every batch run — the sequential loop, or any complete
schedule of the concurrent pool — each submitted identifier produces
exactly one outcome (the collected results are a permutation of the
per-identifier outcomes), and the final reported success count plus error
count equals the number of identifiers submitted. -/
theorem batch_outcome_counts :
    (∀ (scrape : String → Except String String) (urls : List String) (output : String)
       (fs : FSState) (b : BatchState),
      scrapeSequential scrape urls output fs = .ok b →
      b.successCount + b.errorCount = urls.length) ∧
    (∀ (process : String → Result) (urls : List String) (results : List Result),
      (∀ u, (process u).url = u) →
      PoolReaches process ⟨urls, [], []⟩ ⟨[], [], results⟩ →
      results.Perm (urls.map process) ∧
      ∀ numWorkers totalURLs : Nat, ∃ n1 n2 logs,
        scrapeConcurrentCollect numWorkers totalURLs results = .ok (n1, n2, logs) ∧
        n1 + n2 = urls.length) := by
  constructor
  · intro scrape urls output fs b h
    unfold scrapeSequential at h
    simp only [Except.ok.injEq] at h
    subst h
    have hc := seq_counts scrape output urls ⟨0, 0, fs, []⟩
    simpa using hc
  · intro process urls results hid htrace
    have hperm := poolReaches_complete process hid urls results htrace
    refine ⟨hperm, ?_⟩
    intro numWorkers totalURLs
    refine ⟨_, _, _, rfl, ?_⟩
    have hsum := collect_counts_sum results (0, 0, [.startingWorkers numWorkers totalURLs])
    have hlen : results.length = urls.length := by
      rw [hperm.length_eq, List.length_map]
    simp only [Nat.zero_add] at hsum
    omega

/-- Witness for C1: a two-identifier batch, sequentially with an
always-failing scraper, and concurrently along an explicit schedule that
finishes the two jobs in reverse order. -/
theorem batch_outcome_counts_witness :
    (∀ b : BatchState,
      scrapeSequential (fun _ => .error "boom") ["a", "b"] "/out" ⟨[], [], false, false⟩
        = .ok b → b.successCount + b.errorCount = 2) ∧
    ([⟨"b", true, none, "p"⟩, ⟨"a", true, none, "p"⟩] : List Result).Perm
      (["a", "b"].map (fun u => (⟨u, true, none, "p"⟩ : Result))) := by
  constructor
  · intro b h
    exact batch_outcome_counts.1 (fun _ => .error "boom") ["a", "b"] "/out"
      ⟨[], [], false, false⟩ b h
  · have htrace : PoolReaches (fun u => (⟨u, true, none, "p"⟩ : Result))
        ⟨["a", "b"], [], []⟩
        ⟨[], [], [⟨"b", true, none, "p"⟩, ⟨"a", true, none, "p"⟩]⟩ :=
      .step (.take "a" ["b"] [] [])
        (.step (.take "b" [] ["a"] [])
          (.step (.finish "b" [] [] ["a"] [])
            (.step (.finish "a" [] [] [] [⟨"b", true, none, "p"⟩])
              (.refl _))))
    exact (batch_outcome_counts.2 (fun u => ⟨u, true, none, "p"⟩) ["a", "b"]
      [⟨"b", true, none, "p"⟩, ⟨"a", true, none, "p"⟩] (fun _ => rfl) htrace).1

/-- Claim C5: the orchestrator never aborts a batch early: each per-item
error is caught at the item-processor boundary and becomes a failed
outcome, every identifier is processed, both branches of `ScrapeURLs`
return without a batch-level error, and the summary line with the final
counts is always the last log emitted. -/
theorem batch_never_aborts :
    (∀ (scrape : String → Except String String) (urls : List String) (output : String)
       (fs : FSState), ∃ b : BatchState,
      scrapeSequential scrape urls output fs = .ok b ∧
      b.logs.getLast? = some (.completed b.successCount b.errorCount) ∧
      b.successCount + b.errorCount = urls.length) ∧
    (∀ (numWorkers totalURLs : Nat) (results : List Result), ∃ n1 n2 logs,
      scrapeConcurrentCollect numWorkers totalURLs results = .ok (n1, n2, logs) ∧
      logs.getLast? = some (.completed n1 n2)) ∧
    (∀ (scrape : String → Except String String) (job : Job) (st : FSState) (e : String),
      scrape job.url = .error e →
      processJob scrape job st =
        ({ url := job.url, success := false, error := some e, outputPath := "" }, st)) := by
  refine ⟨?_, ?_, ?_⟩
  · intro scrape urls output fs
    refine ⟨_, rfl, ?_, ?_⟩
    · simp [scrapeSequential, List.getLast?_concat]
    · have hc := seq_counts scrape output urls ⟨0, 0, fs, []⟩
      simpa [scrapeSequential] using hc
  · intro numWorkers totalURLs results
    refine ⟨_, _, _, rfl, ?_⟩
    simp [scrapeConcurrentCollect, List.getLast?_concat]
  · intro scrape job st e h
    unfold processJob
    simp [h]

/-- Witness for C5: a one-identifier batch whose only item fails, a
collector draining one failed result, and the worker body on a failing
scrape. -/
theorem batch_never_aborts_witness :
    (∃ b : BatchState,
      scrapeSequential (fun _ => .error "boom") ["u"] "/out" ⟨[], [], false, false⟩ = .ok b ∧
      b.logs.getLast? = some (.completed b.successCount b.errorCount) ∧
      b.successCount + b.errorCount = 1) ∧
    (∃ n1 n2 logs,
      scrapeConcurrentCollect 4 1 [⟨"u", false, some "boom", ""⟩] = .ok (n1, n2, logs) ∧
      logs.getLast? = some (.completed n1 n2)) ∧
    processJob (fun _ => .error "boom") ⟨"u", ".c", "/out"⟩ ⟨[], [], false, false⟩ =
      ({ url := "u", success := false, error := some "boom", outputPath := "" },
        ⟨[], [], false, false⟩) :=
  ⟨batch_never_aborts.1 (fun _ => .error "boom") ["u"] "/out" ⟨[], [], false, false⟩,
   batch_never_aborts.2.1 4 1 [⟨"u", false, some "boom", ""⟩],
   batch_never_aborts.2.2 (fun _ => .error "boom") ⟨"u", ".c", "/out"⟩
     ⟨[], [], false, false⟩ "boom" rfl⟩

/-- Counterexample to claim C7 as stated: with base directory `/base`, the
request path `/../basement` resolves to `/basement.md`, which escapes the
base directory, yet the handler's string-prefix check accepts it, reads
the file and serves it instead of rejecting the request with a client
error. -/
theorem serve_escaping_sibling_served :
    escapesBase "/base" (resolveRequestPath "/base" "/../basement") = true ∧
    serveHTTP "/base" ⟨[("/basement.md", "secret")], false⟩ "GET" "/../basement" =
      .serve "/basement.md" "secret" :=
  ⟨by decide, by decide⟩

/-- Claim C7 amended: the server rejects with a 400 client error — before
any filesystem access — exactly those requests whose resolved path does
not have the base directory as a string prefix.  The check is a plain
string-prefix test on the cleaned joined path: classic `..` traversals
resolve outside that prefix and are rejected, but sibling paths whose
name extends the base directory's name (such as `/basement.md` under
`/base`) keep the prefix and are served. -/
theorem serve_rejects_non_prefixed_paths (baseDir urlPath : String) (fs : ServerFS)
    (h : goHasPre (resolveRequestPath baseDir urlPath) baseDir = false) :
    serveHTTP baseDir fs "GET" urlPath = .badRequest := by
  unfold serveHTTP
  simp [h]

/-- Witness for the amended C7: a `..` traversal towards `/etc/passwd`
resolves to `/etc/passwd.md`, loses the `/base` prefix and is rejected. -/
theorem serve_rejects_non_prefixed_paths_witness :
    goHasPre (resolveRequestPath "/base" "/../../etc/passwd") "/base" = false ∧
    serveHTTP "/base" ⟨[("/etc/passwd.md", "secret")], false⟩ "GET" "/../../etc/passwd" =
      .badRequest :=
  ⟨by decide,
   serve_rejects_non_prefixed_paths "/base" "/../../etc/passwd"
     ⟨[("/etc/passwd.md", "secret")], false⟩ (by decide)⟩

theorem isPrefixOf_extend (sub l1 l2 : List Char) (h : sub.isPrefixOf l1 = true) :
    sub.isPrefixOf (l1 ++ l2) = true := by
  rw [List.isPrefixOf_iff_prefix] at h ⊢
  exact h.trans (List.prefix_append l1 l2)

theorem listContainsSub_of_isPre (sub l : List Char) (h : sub.isPrefixOf l = true) :
    listContainsSub sub l = true := by
  cases l with
  | nil =>
    cases sub with
    | nil => rfl
    | cons c cs => simp [List.isPrefixOf] at h
  | cons c rest =>
    unfold listContainsSub
    simp [h]

theorem expected_phrase_contained (root : String) :
    goContains ("expected element type <urlset> but have <" ++ root ++ ">")
      "expected element type" = true := by
  unfold goContains
  apply listContainsSub_of_isPre
  rw [String.data_append, String.data_append, List.append_assoc]
  apply isPrefixOf_extend
  decide

/-- Claim C9: a successfully fetched document that is well-formed XML but
not in `urlset` format makes `GetURLsFromSitemap` return an empty
identifier list together with a warning log, not an error; and it fails
exactly for fetch transport failures, non-2xx statuses, and malformed XML
(whose syntax-error message does not hold the decoder's
`expected element type` phrase), while a well-formed `urlset` yields its
filtered locations. -/
theorem sitemap_non_urlset_not_an_error :
    (∀ (status : Nat) (root : String) (urls : List String) (pathFilter : String),
      200 ≤ status → status < 300 → root ≠ "urlset" →
      getURLsFromSitemap (.response status (.wellFormed root urls)) pathFilter = .ok [] ∧
      (fetchSitemap (.response status (.wellFormed root urls))).2 =
        [.fetching, .warningNotSitemap]) ∧
    (∀ (m pathFilter : String),
      getURLsFromSitemap (.transportErr m) pathFilter =
        .error ("failed to fetch sitemap: " ++ m)) ∧
    (∀ (status : Nat) (body : XMLDoc) (pathFilter : String),
      status < 200 ∨ 300 ≤ status →
      getURLsFromSitemap (.response status body) pathFilter =
        .error ("sitemap request failed with status " ++ toString status)) ∧
    (∀ (status : Nat) (msg pathFilter : String), 200 ≤ status → status < 300 →
      goContains msg "expected element type" = false →
      getURLsFromSitemap (.response status (.malformed msg)) pathFilter =
        .error ("failed to parse sitemap XML: " ++ msg)) ∧
    (∀ (status : Nat) (urls : List String) (pathFilter : String),
      200 ≤ status → status < 300 →
      getURLsFromSitemap (.response status (.wellFormed "urlset" urls)) pathFilter =
        .ok (filterURLs urls pathFilter)) := by
  refine ⟨?_, ?_, ?_, ?_, ?_⟩
  · intro status root urls pathFilter h1 h2 hroot
    have hst : ¬(status < 200 ∨ 300 ≤ status) := by omega
    constructor
    · unfold getURLsFromSitemap fetchSitemap decodeSitemap
      simp [hst, hroot, expected_phrase_contained, filterURLs]
    · unfold fetchSitemap decodeSitemap
      simp [hst, hroot, expected_phrase_contained]
  · intro m pathFilter
    rfl
  · intro status body pathFilter hst
    unfold getURLsFromSitemap fetchSitemap
    simp [hst]
  · intro status msg pathFilter h1 h2 hmsg
    have hst : ¬(status < 200 ∨ 300 ≤ status) := by omega
    unfold getURLsFromSitemap fetchSitemap decodeSitemap
    simp [hst, hmsg]
  · intro status urls pathFilter h1 h2
    have hst : ¬(status < 200 ∨ 300 ≤ status) := by omega
    unfold getURLsFromSitemap fetchSitemap decodeSitemap
    simp [hst]

/-- Witness for C9 at status 200: an RSS document yields an empty list
with the warning; a 500 status, a network error and malformed XML fail;
a real `urlset` yields its filtered locations. -/
theorem sitemap_non_urlset_not_an_error_witness :
    (getURLsFromSitemap (.response 200 (.wellFormed "rss" ["https://x/a"])) "" = .ok [] ∧
      (fetchSitemap (.response 200 (.wellFormed "rss" ["https://x/a"]))).2 =
        [.fetching, .warningNotSitemap]) ∧
    getURLsFromSitemap (.transportErr "network error") "" =
      .error "failed to fetch sitemap: network error" ∧
    getURLsFromSitemap (.response 500 (.wellFormed "urlset" [])) "" =
      .error ("sitemap request failed with status " ++ toString 500) ∧
    getURLsFromSitemap (.response 200 (.malformed "XML syntax error on line 1")) "" =
      .error "failed to parse sitemap XML: XML syntax error on line 1" ∧
    getURLsFromSitemap
        (.response 200 (.wellFormed "urlset" ["https://x/docs/a", "https://x/blog"]))
        "/docs" =
      .ok (filterURLs ["https://x/docs/a", "https://x/blog"] "/docs") :=
  ⟨sitemap_non_urlset_not_an_error.1 200 "rss" ["https://x/a"] "" (by decide) (by decide)
     (by decide),
   sitemap_non_urlset_not_an_error.2.1 "network error" "",
   sitemap_non_urlset_not_an_error.2.2.1 500 (.wellFormed "urlset" []) "" (by omega),
   sitemap_non_urlset_not_an_error.2.2.2.1 200 "XML syntax error on line 1" ""
     (by decide) (by decide) (by decide),
   sitemap_non_urlset_not_an_error.2.2.2.2 200 ["https://x/docs/a", "https://x/blog"]
     "/docs" (by decide) (by decide)⟩
